import Mathlib

/-!
Verification of the ffmpegFE repository: a shallow embedding of the two
command-line tools `movieconvert.py` (batch converter) and `ffmpegfe.py`
(interactive wizard).  External effects (the filesystem listing, the
`ffprobe` output, the operator's confirmation line on stdin, the encoder's
exit status) are passed in as explicit parameters; everything the scripts
compute from them is translated as executable Lean functions that mirror
the Python source line by line.
-/

deriving instance DecidableEq for Except

/-! ## Python string primitives used by both scripts -/

/-- ASCII lowercasing of one character, as Python `str.lower` does for the
ASCII range (the scripts only ever compare ASCII tags). -/
def lowCh (c : Char) : Char :=
  if 'A' ≤ c && c ≤ 'Z' then Char.ofNat (c.toNat + 32) else c

/-- Python `str.lower` (ASCII fragment). -/
def pyLower (s : String) : String := String.mk (s.data.map lowCh)

/-- ASCII uppercasing of one character. -/
def upCh (c : Char) : Char :=
  if 'a' ≤ c && c ≤ 'z' then Char.ofNat (c.toNat - 32) else c

/-- Python `str.capitalize`: first character uppercased, the rest lowered. -/
def pyCapitalize (s : String) : String :=
  match s.data with
  | [] => ""
  | c :: rest => String.mk (upCh c :: rest.map lowCh)

/-- The whitespace characters removed by Python `str.strip()` (ASCII part). -/
def pySpace (c : Char) : Bool :=
  c == ' ' || c == '\t' || c == '\n' || c == '\r' || c == '\x0b' || c == '\x0c'

/-- Python `str.strip()`. -/
def pyStrip (s : String) : String :=
  String.mk (((s.data.dropWhile pySpace).reverse.dropWhile pySpace).reverse)

/-- Whether the first list is an initial segment of the second. -/
def listStarts : List Char → List Char → Bool
  | [], _ => true
  | _ :: _, [] => false
  | a :: as, b :: bs => a == b && listStarts as bs

/-- Whether `sub` occurs contiguously inside `l` (Python `sub in s`). -/
def listHasSub (sub : List Char) : List Char → Bool
  | [] => sub.isEmpty
  | c :: rest => listStarts sub (c :: rest) || listHasSub sub rest

/-- Python `sub in s` on strings. -/
def strContains (sub s : String) : Bool := listHasSub sub.data s.data

/-- Whether `l` ends with `suf`. -/
def listEndsWith (l suf : List Char) : Bool := listStarts suf.reverse l.reverse

/-- Python `s.endswith(suf)`. -/
def pyEndsWith (s suf : String) : Bool := listEndsWith s.data suf.data

/-- Python slicing `s[n:]` (by character count). -/
def strDrop (s : String) (n : Nat) : String := String.mk (s.data.drop n)

/-- Python `s.split(sep)` for a one-character separator: `"" ↦ [""]`,
empty fields are kept. -/
def splitCh (sep : Char) : List Char → List (List Char)
  | [] => [[]]
  | c :: rest =>
    let r := splitCh sep rest
    if c == sep then [] :: r
    else
      match r with
      | h :: t => (c :: h) :: t
      | [] => [[c]]

/-- Index of the last occurrence of `c` in `l`, if any (Python `str.rfind`). -/
def lastIdxOf (c : Char) (l : List Char) : Option Nat :=
  match l.reverse.findIdx? (· == c) with
  | some j => some (l.length - 1 - j)
  | none => none

/-- Python `os.path.basename` for POSIX paths: everything after the last
slash. -/
def pyBasename (p : String) : String :=
  match lastIdxOf '/' p.data with
  | some j => String.mk (p.data.drop (j + 1))
  | none => p

/-- Python `os.path.dirname` for POSIX paths: everything up to the last
slash, with trailing slashes stripped unless the head is all slashes. -/
def pyDirname (p : String) : String :=
  let l := p.data
  let i : Nat := match lastIdxOf '/' l with | some j => j + 1 | none => 0
  let head := l.take i
  if head.isEmpty || head.all (· == '/') then String.mk head
  else String.mk ((head.reverse.dropWhile (· == '/')).reverse)

/-- Scanning left of the final dot (in reversed order): is there a
non-dot character before the next slash or the start of the name?
This is the check CPython `posixpath.splitext` performs so that names
made only of leading dots (".srt", "..srt") get no extension. -/
def nonDotBeforeSlash : List Char → Bool
  | [] => false
  | c :: rest =>
    if c == '/' then false
    else if c == '.' then nonDotBeforeSlash rest
    else true

/-- Length of the extension (final dot included) of a reversed path:
walk the reversed characters to the last dot of the basename; the dot
counts only if a non-dot character stands between it and the previous
slash (or the start). -/
def extLenRev : List Char → Nat → Nat
  | [], _ => 0
  | c :: rest, k =>
    if c == '/' then 0
    else if c == '.' then (if nonDotBeforeSlash rest then k + 1 else 0)
    else extLenRev rest (k + 1)

/-- Python `os.path.splitext` for POSIX paths. -/
def pySplitExt (p : String) : String × String :=
  let n := extLenRev p.data.reverse 0
  (String.mk (p.data.take (p.data.length - n)), String.mk (p.data.drop (p.data.length - n)))

/-- Python `os.path.join` for POSIX paths, two arguments. -/
def pyJoin (d f : String) : String :=
  if listStarts ['/'] f.data then f
  else if d == "" || pyEndsWith d "/" then d ++ f
  else d ++ "/" ++ f

/-- Rendering of `s.get(key, 'N/A')` into an f-string: the integer when
present, the string `N/A` otherwise. -/
def orNA : Option Int → String
  | some n => toString n
  | none => "N/A"

/-- Python `str(x)` on an `Optional[int]` (used for the CRF value:
`str(None)` is `"None"`). -/
def crfStr : Option Int → String
  | some n => toString n
  | none => "None"

/-- A JSON scalar as it reaches the scripts from `json.loads`: the
disposition values are integers from `ffprobe` but the code's `dict.get`
defaults are strings, so both shapes flow through the same variables. -/
inductive JVal
  | str (s : String)
  | int (n : Int)
deriving DecidableEq, Repr

/-- Python truthiness of such a value (`'0'` is truthy, `0` is not). -/
def JVal.truthy : JVal → Bool
  | .str s => !s.isEmpty
  | .int n => n != 0

/-! ## The `ffprobe` stream record

One element of the `streams` array of `ffprobe -show_streams -of json`,
restricted to the keys either script reads.  A `none` field models an
absent key, so every `s.get(...)` default in the source is visible in the
embedding. -/

structure RawStream where
  index : Option Int
  codec_type : Option String
  codec_name : Option String
  width : Option Int
  height : Option Int
  channels : Option Int
  tag_language : Option String
  tag_title : Option String
  tag_forced : Option String
  disp_default : Option JVal
  disp_forced : Option JVal
  disp_hearing : Option JVal
deriving DecidableEq, Repr

/-! ## movieconvert.py -/

/-- The parsed command-line options of the batch tool (`argparse` result).
`subtitle` is `store_false` (subtitles included unless `-s` is given);
`verbose` is accepted but never read by the script. -/
structure MCArgs where
  container : String
  videoCodec : String
  rescale : Bool
  crfValue : Option Int
  audioCodec : String
  stereo : Bool
  subtitle : Bool
  delete : Bool
  noPrompt : Bool
  verbose : Bool
deriving DecidableEq, Repr

/-- `movieconvert.crf_range` (lines 12-16): the `argparse` type callback,
modelled after the `int(value)` conversion succeeded; values outside
`[0, 51]` raise `ArgumentTypeError`, values inside are returned unchanged. -/
def crf_range (v : Int) : Except String Int :=
  if v < 0 || v > 51 then
    .error ("CRF value must be between 0 and 51, but got " ++ toString v ++ ".")
  else .ok v

/-- The `argparse` layer around `crf_range` (line 30, `type=crf_range`):
when the type callback raises `ArgumentTypeError`, `argparse` routes the
message through `parser.error`, which prints the usage line and
terminates the process with exit status 2 — so a supplied out-of-range
value never reaches `main`, and `main`'s own exit-1 range check at
lines 52-54 is unreachable for supplied values. -/
def parseCrfArg (v : Int) : Except Nat Int :=
  match crf_range v with
  | .error _ => .error 2
  | .ok w => .ok w

/-- Lines 46-54 of `main`: default the CRF when absent (20 for avc, 24
for hevc), exit with status 1 when a present value lies outside [0, 51]. -/
def mcValidateCrf (crf : Option Int) (videoCodec : String) : Except Nat (Option Int) :=
  match crf with
  | none =>
    if videoCodec == "avc" then .ok (some 20)
    else if videoCodec == "hevc" then .ok (some 24)
    else .ok none
  | some v => if v < 0 || v > 51 then .error 1 else .ok (some v)

/-- One entry of `subfiles_in` (lines 113-122). -/
structure SubFile where
  index : Nat
  codec : String
  language : String
  dflt : Nat
  forced : Nat
  sdh : Nat
  title : String
  filename : String
deriving DecidableEq, Repr

/-- The body of the directory loop, lines 89-123: a listing entry is
kept when its lowercase form ends in `.srt` and the base name occurs in
it; the characters after position `len(base_name)` are lowered and split
on dots, and each part equal to `en`/`eng`, `forced` or `sdh` sets the
language / forced / sdh flags and contributes a title word.  The language
defaults to `eng` and the title to `English`. -/
def mcClassifyOne (directory base_name : String) (i : Nat) (filename : String) : Option SubFile :=
  if pyEndsWith (pyLower filename) ".srt" && strContains base_name filename then
    let parts := splitCh '.' (pyLower (strDrop filename base_name.length)).data
    let st := parts.foldl
      (fun (st : String × Nat × Nat × List String) part =>
        if part == "en".data || part == "eng".data then
          ("eng", st.2.1, st.2.2.1, st.2.2.2 ++ ["English"])
        else if part == "forced".data then
          (st.1, 1, st.2.2.1, st.2.2.2 ++ ["Forced"])
        else if part == "sdh".data then
          (st.1, st.2.1, 1, st.2.2.2 ++ ["SDH"])
        else st)
      ("eng", 0, 0, [])
    let title := if st.2.2.2.isEmpty then "English" else String.intercalate " " st.2.2.2
    some ⟨i, "srt", st.1, 0, st.2.1, st.2.2.1, title, pyJoin directory filename⟩
  else none

/-- Lines 84-123: scan the directory listing, numbering the matching
subtitle files from 1. -/
def scanSubfiles (directory base_name : String) (listing : List String) : List SubFile :=
  (listing.foldl
    (fun (acc : List SubFile × Nat) filename =>
      match mcClassifyOne directory base_name acc.2 filename with
      | some sf => (acc.1 ++ [sf], acc.2 + 1)
      | none => acc)
    ([], 1)).1

/-- An entry of `video_streams_in`. -/
structure VStreamIn where
  idx : Option Int
  codec : String
  resolution : String
  title : String
deriving DecidableEq, Repr

/-- An entry of `video_streams_out`. -/
structure VStreamOut where
  idx : Option Int
  codec : String
  resolution : String
  title : String
deriving DecidableEq, Repr

/-- An entry of `audio_streams_in`. -/
structure AStreamIn where
  idx : Option Int
  codec : String
  language : String
  channels : Option Int
  title : String
deriving DecidableEq, Repr

/-- An entry of `audio_streams_out`. -/
structure AStreamOut where
  idx : Option Int
  codec : String
  language : String
  channels : Option Int
  title : String
deriving DecidableEq, Repr

/-- An entry of `subtitle_streams_in`. -/
structure SStreamIn where
  idx : Option Int
  codec : String
  language : String
  dflt : JVal
  forced : JVal
  sdh : JVal
  title : String
deriving DecidableEq, Repr

/-- An entry of `subtitle_streams_out`; `forced`/`sdh` may hold the
disposition value from the probe or the literal `1` the script writes
when the tag word occurs in the title. -/
structure SStreamOut where
  idx : Option Int
  codec : String
  language : String
  dflt : JVal
  forced : JVal
  sdh : JVal
  title : String
deriving DecidableEq, Repr

/-- The six stream buckets of lines 136-137. -/
structure Buckets where
  vin : List VStreamIn
  vout : List VStreamOut
  ain : List AStreamIn
  aout : List AStreamOut
  sin : List SStreamIn
  sout : List SStreamOut
deriving DecidableEq, Repr

/-- The loop body of lines 138-197 for one probe stream: derive the
display values, then append to the input bucket of its codec type and,
when selected, to the output bucket.  The first audio stream or any
`eng` audio is kept; a subtitle stream is kept when its language is
`eng` or `N/A`. -/
def processStream (a : MCArgs) (acc : Buckets) (s : RawStream) : Buckets :=
  let codec_type := pyCapitalize (s.codec_type.getD "Unknown")
  let codec_name := s.codec_name.getD "Unknown"
  let resolution := orNA s.width ++ "x" ++ orNA s.height
  let language0 := s.tag_language.getD "eng"
  let language := if language0 == "und" then "eng" else language0
  let title := s.tag_title.getD ""
  let dflt := s.disp_default.getD (.str "0")
  let forced := s.disp_forced.getD (.str "0")
  let sdh := s.disp_hearing.getD (.str "0")
  let p1 := [if language == "eng" then "English" else language]
  let p2 := if forced == JVal.str "1" || strContains "forced" (pyLower title) then p1 ++ ["Forced"] else p1
  let p3 := if sdh == JVal.str "1" || strContains "sdh" (pyLower title) then p2 ++ ["SDH"] else p2
  let newtitle := String.intercalate " " p3
  if codec_type == "Video" then
    let v2 : VStreamOut := ⟨s.index,
      (if a.videoCodec != "copy" then a.videoCodec else codec_name),
      (if a.rescale then "-2x720" else resolution), "N/A"⟩
    { acc with
        vin := acc.vin ++ [⟨s.index, codec_name, resolution, title⟩],
        vout := acc.vout ++ [v2] }
  else if codec_type == "Audio" then
    let ain2 := acc.ain ++ [⟨s.index, codec_name, s.tag_language.getD "N/A", s.channels, title⟩]
    if ain2.length == 1 || language == "eng" then
      let a2 : AStreamOut := ⟨s.index,
        (if a.audioCodec != "copy" then a.audioCodec else codec_name),
        (if language != "N/A" then language else "eng"), s.channels, newtitle⟩
      { acc with
          ain := ain2,
          aout := acc.aout ++ [a2] }
    else { acc with ain := ain2 }
  else if codec_type == "Subtitle" then
    let sin2 := acc.sin ++ [⟨s.index, codec_name, language, dflt, forced, sdh, title⟩]
    if language == "eng" || language == "N/A" then
      let s2 : SStreamOut := ⟨s.index, codec_name, language, dflt,
        (if strContains "forced" (pyLower title) then .int 1 else forced),
        (if strContains "sdh" (pyLower title) then .int 1 else sdh), newtitle⟩
      { acc with
          sin := sin2,
          sout := acc.sout ++ [s2] }
    else { acc with sin := sin2 }
  else acc

/-- Lines 134-197: bucket every probe stream. -/
def parseStreams (a : MCArgs) (ss : List RawStream) : Buckets :=
  ss.foldl (processStream a) ⟨[], [], [], [], [], []⟩

/-- The audio-metadata flags of lines 300-304 for one output audio
stream.  When either metadata guard fires the script computes
`stream['index'] - 1`; a stream whose probe record lacked `index` holds
the string `N/A` there and the subtraction raises `TypeError`, modelled
as `none`. -/
def audioMetaOne (s : AStreamOut) : Option (List String) :=
  if s.language == "" && s.title == "" then some []
  else
    match s.idx with
    | none => none
    | some n =>
      some ((if s.language != "" then ["-metadata:s:a:" ++ toString (n - 1), "language=" ++ s.language] else [])
        ++ (if s.title != "" then ["-metadata:s:a:" ++ toString (n - 1), "title=" ++ s.title] else []))

/-- The subtitle-stream metadata flags of lines 308-321 for stream
number `i` of the output. -/
def subMetaOne (i : Nat) (s : SStreamOut) : List String :=
  let parts := (if s.forced.truthy then ["+forced"] else [])
    ++ (if s.sdh.truthy then ["+hearing_impaired"] else [])
  (if s.language != "" then ["-metadata:s:s:" ++ toString i, "language=" ++ s.language] else [])
    ++ (if s.title != "" && s.title != "N/A" then ["-metadata:s:s:" ++ toString i, "title=" ++ s.title] else [])
    ++ (if !parts.isEmpty then ["-disposition:s:" ++ toString i, String.join parts] else [])

/-- The subtitle-file metadata flags of lines 323-338 for the file at
offset `j` after the last subtitle stream. -/
def subFileMetaOne (startIdx j : Nat) (f : SubFile) : List String :=
  let i := startIdx + j
  let parts := (if f.forced != 0 then ["+forced"] else [])
    ++ (if f.sdh != 0 then ["+hearing_impaired"] else [])
  (if f.language != "" then ["-metadata:s:s:" ++ toString i, "language=" ++ f.language] else [])
    ++ (if f.title != "" && f.title != "N/A" then ["-metadata:s:s:" ++ toString i, "title=" ++ f.title] else [])
    ++ (if !parts.isEmpty then ["-disposition:s:" ++ toString i, String.join parts] else [])

/-- Lines 240-341: assemble the `ffmpeg` argument list.  `none` models
the `TypeError` crash described at `audioMetaOne`. -/
def buildCmd (a : MCArgs) (input_file output_file : String) (subs : List SubFile)
    (vouts : List VStreamOut) (aouts : List AStreamOut) (souts : List SStreamOut) :
    Option (List String) :=
  let c1 := ["ffmpeg", "-i", input_file]
  let c2 := c1 ++ (if a.subtitle then (subs.map (fun f => ["-f", "srt", "-i", f.filename])).flatten else [])
  let c3 := c2 ++ ["-map_metadata", "-1", "-map_chapters", "-1"]
  let c4 := c3 ++ (vouts.map (fun s => ["-map", "0:" ++ orNA s.idx])).flatten
  let c5 := c4 ++ (aouts.map (fun s => ["-map", "0:" ++ orNA s.idx])).flatten
  let c6 := c5 ++ (if a.subtitle then (souts.map (fun s => ["-map", "0:" ++ orNA s.idx])).flatten else [])
  let c7 := c6 ++ (if a.subtitle then (subs.map (fun f => ["-map", toString f.index ++ ":0"])).flatten else [])
  let c8 := c7 ++
    (if a.videoCodec == "copy" then ["-c:v", "copy"]
     else if a.videoCodec == "avc" then
       ["-c:v", "libx264", "-profile:v", "high", "-preset", "slow", "-crf", crfStr a.crfValue]
     else if a.videoCodec == "hevc" then
       ["-c:v", "libx265", "-preset", "slow", "-crf", crfStr a.crfValue, "-tag:v", "hvc1"]
     else [])
  let c9 := c8 ++ (if a.rescale then ["-vf", "scale=-2:720"] else [])
  let c10 := c9 ++
    (if a.audioCodec == "copy" then ["-c:a", "copy"]
     else if a.audioCodec == "aac" then ["-c:a", "aac"]
     else if a.audioCodec == "ac3" then ["-c:a", "ac3"]
     else if a.audioCodec == "eac3" then ["-c:a", "eac3"]
     else [])
  let c11 := c10 ++ (if a.stereo then ["-ac", "2"] else [])
  let c12 := c11 ++ (if a.subtitle then ["-c:s", "mov_text"] else [])
  let am := aouts.foldl
    (fun (acc : Option (List String)) s =>
      match acc, audioMetaOne s with
      | some l, some m => some (l ++ m)
      | _, _ => none)
    (some [])
  match am with
  | none => none
  | some am =>
    let sm := if a.subtitle then
        (souts.enum.map (fun p => subMetaOne p.1 p.2)).flatten
        ++ (subs.enum.map (fun p => subFileMetaOne souts.length p.1 p.2)).flatten
      else []
    some (c12 ++ am ++ sm ++ [output_file])

/-- The candidate output names of lines 65-70: `base.container`, then
`base.1.container`, `base.2.container`, ... -/
def mcCandidate (base container : String) : Nat → String
  | 0 => base ++ "." ++ container
  | Nat.succ k => base ++ "." ++ toString (k + 1) ++ "." ++ container

/-- The `while os.path.isfile(output_file)` loop of lines 67-70, with
explicit fuel (the real filesystem is finite, so the loop terminates;
`none` only signals exhausted fuel).  Returns the chosen name together
with the final value of `counter`. -/
def mcNameLoop (isf : String → Bool) (base container : String) :
    Nat → String → Nat → Option (String × Nat)
  | 0, _, _ => none
  | Nat.succ fuel, out, counter =>
    if isf out then
      mcNameLoop isf base container fuel (base ++ "." ++ toString counter ++ "." ++ container) (counter + 1)
    else some (out, counter)

/-- Lines 62-70: the output-name selection, started at `base.container`
with `counter = 1`. -/
def mcOutputName (isf : String → Bool) (base container : String) (fuel : Nat) :
    Option (String × Nat) :=
  mcNameLoop isf base container fuel (base ++ "." ++ container) 1

/-- One observable action of the batch tool on its console: each `print`
site of the script is one constructor (the three report blocks are kept
abstract, their content being presentation only). -/
inductive MCEvent
  | crfError
  | inputError
  | streamReport
  | subfileReport
  | outputReport
  | cmdEcho
  | deleteNotice
  | promptShown
  | aborted
  | encError
  | deleting (f : String)
  | renaming (src dst : String)
deriving DecidableEq, Repr

/-- Result of the final phase (lines 351-385): exit status, number of
encoder invocations, console events, files removed and the rename
performed, in order. -/
structure FinR where
  exitCode : Nat
  encoderRuns : Nat
  events : List MCEvent
  deleted : List String
  renamed : Option (String × String)
deriving DecidableEq, Repr

/-- Lines 351-385 of `main`: confirmation prompt (skipped under `-y`),
encoder run, and the delete/rename block.  `stdin` is the operator's
line, `encExit` the encoder's exit status, `files2` the set of paths
that exist when the cleanup runs. -/
def mcFinish (a : MCArgs) (input_file output_file base : String) (counter : Nat)
    (subs : List SubFile) (stdin : String) (encExit : Int) (files2 : List String) : FinR :=
  if !a.noPrompt && pyLower (pyStrip stdin) != "y" then
    ⟨0, 0, [.promptShown, .aborted], [], none⟩
  else
    let ev0 := if !a.noPrompt then [MCEvent.promptShown] else []
    if encExit != 0 then ⟨1, 1, ev0 ++ [.encError], [], none⟩
    else if a.delete then
      let del1 := if input_file != "" && files2.contains input_file then [input_file] else []
      let se := pySplitExt output_file
      let ren := if pyEndsWith se.1 ("." ++ toString (counter - 1)) && se.2 == "." ++ a.container
        then some (output_file, base ++ "." ++ a.container) else none
      let dels := ((subs.filter (fun f => f.filename != "" && files2.contains f.filename)).map
        (fun f => f.filename))
      let evR := match ren with | some p => [MCEvent.renaming p.1 p.2] | none => []
      ⟨0, 1, ev0 ++ del1.map .deleting ++ evR ++ dels.map .deleting, del1 ++ dels, ren⟩
    else ⟨0, 1, ev0, [], none⟩

/-- The observable outcome of one invocation of the batch tool. -/
structure RunR where
  exitCode : Nat
  events : List MCEvent
  ranProbe : Bool
  encoderRuns : Nat
  returnedError : Option String
  outputFile : String
  counter : Nat
  subfiles : List SubFile
  cmd : List String
  deleted : List String
  renamed : Option (String × String)
  crashed : Bool
deriving DecidableEq, Repr

/-- The whole of `movieconvert.main` (lines 46-385) as a function of its
environment: `files` is the set of existing paths during the opening
phase, `listing` the directory listing, `probe` the parsed `ffprobe`
JSON (`none` when `json.loads` fails or the key `streams` is absent),
`stdin` the confirmation line, `encExit` the encoder exit status and
`files2` the set of existing paths at cleanup time.  The result is
`none` only when the output-name loop runs out of fuel, which a finite
filesystem never causes.  Note the malformed-probe branch: the script
executes `return [], "Error: ..."` inside `main`, so the message is a
discarded return value, nothing is printed, and the process ends with
status 0. -/
def mcRun (a : MCArgs) (input_file : String) (files listing : List String)
    (probe : Option (List RawStream)) (stdin : String) (encExit : Int)
    (files2 : List String) : Option RunR :=
  match mcValidateCrf a.crfValue a.videoCodec with
  | .error _ => some ⟨1, [.crfError], false, 0, none, "", 0, [], [], [], none, false⟩
  | .ok crf2 =>
    let a := { a with crfValue := crf2 }
    if !(files.contains input_file) then
      some ⟨1, [.inputError], false, 0, none, "", 0, [], [], [], none, false⟩
    else
      let base := (pySplitExt input_file).1
      match mcOutputName (files.contains ·) base a.container (files.length + 1) with
      | none => none
      | some (output_file, counter) =>
        let dir0 := pyDirname input_file
        let directory := if dir0 == "" then "." else dir0
        let base_name := (pySplitExt (pyBasename input_file)).1
        let subs := scanSubfiles directory base_name listing
        match probe with
        | none =>
          some ⟨0, [], true, 0, some "Error: Could not retrieve stream information.",
            output_file, counter, subs, [], [], none, false⟩
        | some streams =>
          let b := parseStreams a streams
          let ev1 := [MCEvent.streamReport]
            ++ (if a.subtitle && !subs.isEmpty then [MCEvent.subfileReport] else [])
            ++ [MCEvent.outputReport]
          match buildCmd a input_file output_file subs b.vout b.aout b.sout with
          | none =>
            some ⟨1, ev1, true, 0, none, output_file, counter, subs, [], [], none, true⟩
          | some cmd =>
            let ev2 := ev1 ++ [MCEvent.cmdEcho] ++ (if a.delete then [MCEvent.deleteNotice] else [])
            let fin := mcFinish a input_file output_file base counter subs stdin encExit files2
            some ⟨fin.exitCode, ev2 ++ fin.events, true, fin.encoderRuns, none,
              output_file, counter, subs, cmd, fin.deleted, fin.renamed, false⟩

/-- The inputs of the pure planning pipeline cited by the determinism
property: the options, the input path, the set of existing files, the
directory listing and the parsed stream descriptors. -/
structure PlanIn where
  args : MCArgs
  input_file : String
  files : List String
  listing : List String
  streams : List RawStream
deriving DecidableEq, Repr

/-- The derived plan: output name and final counter, the six stream
buckets, the subtitle files found, and the assembled encoder argument
list (composition of lines 62-70, 84-123, 134-197 and 240-341). -/
def mcPlan (p : PlanIn) : Option ((String × Nat) × Buckets × List SubFile × Option (List String)) :=
  match mcOutputName (p.files.contains ·) (pySplitExt p.input_file).1 p.args.container
      (p.files.length + 1) with
  | none => none
  | some (out, cnt) =>
    let dir0 := pyDirname p.input_file
    let directory := if dir0 == "" then "." else dir0
    let base_name := (pySplitExt (pyBasename p.input_file)).1
    let subs := scanSubfiles directory base_name p.listing
    let b := parseStreams p.args p.streams
    some ((out, cnt), b, subs, buildCmd p.args p.input_file out subs b.vout b.aout b.sout)

/-! ## ffmpegfe.py -/

/-- The capture groups of the subtitle-name pattern of
`ffmpegfe.get_srt_filenames`: optional two-letter language code,
optional `forced` tag, optional `sdh` tag. -/
structure FeR where
  lang : Option (List Char)
  forced : Bool
  sdh : Bool
deriving DecidableEq, Repr

/-- One lowercase ASCII letter, the character class of the pattern's
language group. -/
def isLowerAZ (c : Char) : Bool := 'a' ≤ c && c ≤ 'z'

/-- The mandatory tail `\.srt$` of the pattern. -/
def feEnd (l : List Char) : Bool := decide (l = ['.', 's', 'r', 't'])

/-- The optional `(?:\.(sdh))?` group followed by `\.srt$`: try to
consume `.sdh` first, fall back to not consuming it. -/
def feSdh (lang : Option (List Char)) (fr : Bool) (l : List Char) : Option FeR :=
  match l with
  | '.' :: 's' :: 'd' :: 'h' :: r =>
    if feEnd r then some ⟨lang, fr, true⟩
    else if feEnd l then some ⟨lang, fr, false⟩ else none
  | _ => if feEnd l then some ⟨lang, fr, false⟩ else none

/-- The optional `(?:\.(forced))?` group: try to consume `.forced`, and
on failure of the rest of the pattern backtrack to not consuming it. -/
def feForced (lang : Option (List Char)) (l : List Char) : Option FeR :=
  match l with
  | '.' :: 'f' :: 'o' :: 'r' :: 'c' :: 'e' :: 'd' :: r =>
    (match feSdh lang true r with
     | some x => some x
     | none => feSdh lang false l)
  | _ => feSdh lang false l

/-- The optional `(?:\.([a-z]{2}))?` group: try to consume a dot and two
lowercase letters, and on failure of the rest backtrack to none. -/
def feLang (l : List Char) : Option FeR :=
  match l with
  | '.' :: x :: y :: r =>
    if isLowerAZ x && isLowerAZ y then
      (match feForced (some [x, y]) r with
       | some v => some v
       | none => feForced none l)
    else feForced none l
  | _ => feForced none l

/-- The lazy group `^(.+?)`: the shortest non-empty head whose remainder
matches the rest of the pattern wins.  Each step consumes one more
character into the head and offers the remainder to `feLang`. -/
def feScan : List Char → Option FeR
  | [] => none
  | _ :: rest =>
    match feLang rest with
    | some v => some v
    | none => feScan rest

/-- `re.match(r"^(.+?)(?:\.([a-z]{2}))?(?:\.(forced))?(?:\.(sdh))?\.srt$", s)`
as used in `get_srt_filenames` (the argument is already lowercased by
the caller). -/
def feMatchSrt (s : String) : Option FeR := feScan s.data

/-- The loop body of `ffmpegfe.get_srt_filenames` (lines 21-28) for one
listing entry: an entry whose lowercase form ends in `.srt`, contains
the base name, and matches the pattern yields
`(joined path, language or "en", forced, sdh)`. -/
def feEntry (directory base filename : String) : Option (String × String × Nat × Nat) :=
  if pyEndsWith (pyLower filename) ".srt" && strContains base filename then
    match feMatchSrt (pyLower filename) with
    | some r =>
      some (pyJoin directory filename,
        (match r.lang with | some l => String.mk l | none => "en"),
        (if r.forced then 1 else 0), (if r.sdh then 1 else 0))
    | none => none
  else none

/-- The whole of `ffmpegfe.get_srt_filenames` (lines 16-30): the base
name is `splitext(basename(file_path))[0]`, the directory is
`os.path.dirname(file_path)` with no fallback, and `os.listdir` is
called on it.  `listing` is the result of that call when it succeeds;
for a path with no directory component the directory is the empty
string, and `os.listdir("")` unconditionally raises `FileNotFoundError`
(the empty path never names a directory), so the function errors before
reaching the loop.  On success the matching entries are collected, with
the placeholder as fallback. -/
def fe_get_srt_filenames (file_path : String) (listing : List String) :
    Except String (List (String × String × Nat × Nat)) :=
  let base := (pySplitExt (pyBasename file_path)).1
  let directory := pyDirname file_path
  if directory == "" then
    .error "FileNotFoundError: [Errno 2] No such file or directory:"
  else
    let subs := listing.filterMap (feEntry directory base)
    .ok (if subs.isEmpty then [("No srt files present", "en", 0, 0)] else subs)

/-- An entry of `video_streams` in `ffmpegfe.get_streams`. -/
structure FEVideo where
  idx : Option Int
  codec_name : String
  resolution : String
deriving DecidableEq, Repr

/-- An entry of `audio_streams` in `ffmpegfe.get_streams`. -/
structure FEAudio where
  idx : Option Int
  codec_name : String
  language : String
  title : String
deriving DecidableEq, Repr

/-- An entry of `subtitle_streams` in `ffmpegfe.get_streams`. -/
structure FESub where
  idx : Option Int
  language : String
  forced : String
  title : String
deriving DecidableEq, Repr

/-- The possible return values of `ffmpegfe.get_streams`: the 3-tuple of
stream buckets, or — when the probe output is malformed — the 2-tuple
`([], "Error: ...")`.  (The first component of the error pair is an
empty Python list of no particular type; `List String` stands in.) -/
inductive FEStreamsRet
  | triple (v : List FEVideo) (a : List FEAudio) (s : List FESub)
  | pair (l : List String) (msg : String)
deriving DecidableEq, Repr

/-- `ffmpegfe.get_streams` (lines 32-58) with the parsed probe output
passed explicitly (`none` models `json.JSONDecodeError`/`KeyError`). -/
def fe_get_streams (probe : Option (List RawStream)) : FEStreamsRet :=
  match probe with
  | none => .pair [] "Error: Could not retrieve stream information."
  | some streams =>
    let step := fun (acc : List FEVideo × List FEAudio × List FESub) (s : RawStream) =>
      let codec_type := pyCapitalize (s.codec_type.getD "Unknown")
      let codec_name := s.codec_name.getD "Unknown"
      let resolution := orNA s.width ++ "x" ++ orNA s.height
      let language := s.tag_language.getD "N/A"
      let title := s.tag_title.getD "N/A"
      let forced := s.tag_forced.getD "N/A"
      if codec_type == "Video" then
        (acc.1 ++ [⟨s.index, codec_name, resolution⟩], acc.2.1, acc.2.2)
      else if codec_type == "Audio" then
        (acc.1, acc.2.1 ++ [⟨s.index, codec_name, language, title⟩], acc.2.2)
      else if codec_type == "Subtitle" then
        (acc.1, acc.2.1, acc.2.2 ++ [⟨s.index, language, forced, title⟩])
      else acc
    let r := streams.foldl step ([], [], [])
    .triple r.1 r.2.1 r.2.2

/-- Line 111 of `ffmpegfe.main`: the call site unpacks the return value
of `get_streams` into three variables.  When the error 2-tuple comes
back the unpacking raises an uncaught `ValueError` (modelled `none`):
the process dies with a traceback and the error text is never shown. -/
def feMainUnpack (r : FEStreamsRet) : Option (List FEVideo × List FEAudio × List FESub) :=
  match r with
  | .triple v a s => some (v, a, s)
  | .pair _ _ => none

/-- `ffmpegfe.get_output_filename` (lines 12-14). -/
def get_output_filename (p : String) : String :=
  let se := pySplitExt p
  if pyLower se.2 == ".mp4" then se.1 ++ ".1.mp4" else se.1 ++ ".mp4"

/-! ## Helper lemmas -/

theorem listStarts_self_append (p t : List Char) : listStarts p (p ++ t) = true := by
  induction p with
  | nil => rfl
  | cons c cs ih => simp [listStarts, ih]

theorem listHasSub_self_append (s t : List Char) : listHasSub s (s ++ t) = true := by
  cases s with
  | nil =>
    cases t with
    | nil => rfl
    | cons c r => simp [listHasSub, listStarts]
  | cons c cs =>
    show (listStarts (c :: cs) ((c :: cs) ++ t) || listHasSub (c :: cs) (cs ++ t)) = true
    rw [listStarts_self_append]
    rfl

theorem listEndsWith_append (x suf : List Char) : listEndsWith (x ++ suf) suf = true := by
  unfold listEndsWith
  rw [List.reverse_append]
  exact listStarts_self_append suf.reverse x.reverse

theorem isLowerAZ_ne_dot (c : Char) (h : isLowerAZ c = true) : c ≠ '.' := by
  intro he
  subst he
  exact absurd h (by decide)

theorem feEnd_cons_ne_dot (c : Char) (xs : List Char) (h : c ≠ '.') :
    feEnd (c :: xs) = false := by
  have hne : (c :: xs) ≠ ['.', 's', 'r', 't'] := by
    intro he
    exact h (List.head_eq_of_cons_eq he)
  simp [feEnd, hne]

theorem feSdh_cons_ne_dot (lang : Option (List Char)) (fr : Bool) (c : Char) (xs : List Char)
    (h : c ≠ '.') : feSdh lang fr (c :: xs) = none := by
  unfold feSdh
  split
  · rename_i heq
    exact absurd (List.head_eq_of_cons_eq heq) h
  · rw [feEnd_cons_ne_dot c xs h]
    rfl

theorem feForced_cons_ne_dot (lang : Option (List Char)) (c : Char) (xs : List Char)
    (h : c ≠ '.') : feForced lang (c :: xs) = none := by
  unfold feForced
  split
  · rename_i heq
    exact absurd (List.head_eq_of_cons_eq heq) h
  · exact feSdh_cons_ne_dot lang false c xs h

theorem feLang_cons_ne_dot (c : Char) (xs : List Char) (h : c ≠ '.') :
    feLang (c :: xs) = none := by
  unfold feLang
  split
  · rename_i heq
    exact absurd (List.head_eq_of_cons_eq heq) h
  · exact feForced_cons_ne_dot none c xs h

theorem feScan_through (l t : List Char) (hl : l ≠ []) (hnd : ∀ c ∈ l, c ≠ '.')
    (ht : (feLang t).isSome = true) : feScan (l ++ t) = feLang t := by
  induction l with
  | nil => exact absurd rfl hl
  | cons c cs ih =>
    cases cs with
    | nil =>
      show (match feLang t with | some v => some v | none => feScan t) = feLang t
      cases hfe : feLang t with
      | none => rw [hfe] at ht; exact absurd ht (by decide)
      | some v => rfl
    | cons c2 cs2 =>
      have h2 : feLang (c2 :: (cs2 ++ t)) = none :=
        feLang_cons_ne_dot c2 (cs2 ++ t) (hnd c2 (by simp))
      show (match feLang (c2 :: (cs2 ++ t)) with
        | some v => some v
        | none => feScan (c2 :: (cs2 ++ t))) = feLang t
      rw [h2]
      exact ih (by simp) (fun x hx => hnd x (List.mem_cons_of_mem c hx))

theorem nonDotBeforeSlash_cons (c : Char) (r : List Char) (h1 : c ≠ '.') (h2 : c ≠ '/') :
    nonDotBeforeSlash (c :: r) = true := by
  simp [nonDotBeforeSlash, h1, h2]

theorem extLenRev_skip (l : List Char) (hl : ∀ c ∈ l, c ≠ '.' ∧ c ≠ '/') (rest : List Char)
    (k : Nat) :
    extLenRev (l ++ '.' :: rest) k =
      (if nonDotBeforeSlash rest then k + l.length + 1 else 0) := by
  induction l generalizing k with
  | nil =>
    show (if nonDotBeforeSlash rest then k + 1 else 0) = _
    split <;> simp
  | cons c cs ih =>
    have hc := hl c (by simp)
    have e1 : (c == '/') = false := beq_eq_false_iff_ne.mpr hc.2
    have e2 : (c == '.') = false := beq_eq_false_iff_ne.mpr hc.1
    show (if c == '/' then 0
      else if c == '.' then (if nonDotBeforeSlash (cs ++ '.' :: rest) then k + 1 else 0)
      else extLenRev (cs ++ '.' :: rest) (k + 1)) = _
    rw [e1, e2]
    show extLenRev (cs ++ '.' :: rest) (k + 1) = _
    rw [ih (fun x hx => hl x (List.mem_cons_of_mem c hx)) (k + 1)]
    split
    · simp
      omega
    · rfl

theorem pySplitExt_concat (b ds ext : List Char)
    (hds : ds ≠ []) (hdsc : ∀ c ∈ ds, c ≠ '.' ∧ c ≠ '/')
    (hext : ∀ c ∈ ext, c ≠ '.' ∧ c ≠ '/') :
    pySplitExt (String.mk ((b ++ '.' :: ds) ++ '.' :: ext)) =
      (String.mk (b ++ '.' :: ds), String.mk ('.' :: ext)) := by
  have hrev : ((b ++ '.' :: ds) ++ '.' :: ext).reverse
      = ext.reverse ++ '.' :: (b ++ '.' :: ds).reverse := by
    rw [List.reverse_append, List.reverse_cons]
    simp
  have hnd : nonDotBeforeSlash ((b ++ '.' :: ds).reverse) = true := by
    rw [List.reverse_append, List.reverse_cons]
    cases hdr : ds.reverse with
    | nil => exact absurd (List.reverse_eq_nil_iff.mp hdr) hds
    | cons d dr =>
      have hd : d ∈ ds := List.mem_reverse.mp (by rw [hdr]; simp)
      have hdd := hdsc d hd
      simp only [List.cons_append]
      exact nonDotBeforeSlash_cons d _ hdd.1 hdd.2
  have hn : extLenRev (((b ++ '.' :: ds) ++ '.' :: ext).reverse) 0 = ext.length + 1 := by
    rw [hrev, extLenRev_skip ext.reverse (fun c hc => hext c (List.mem_reverse.mp hc)) _ 0,
      if_pos hnd]
    simp
  show (String.mk (((b ++ '.' :: ds) ++ '.' :: ext).take
        (((b ++ '.' :: ds) ++ '.' :: ext).length
          - extLenRev (((b ++ '.' :: ds) ++ '.' :: ext).reverse) 0)),
      String.mk (((b ++ '.' :: ds) ++ '.' :: ext).drop
        (((b ++ '.' :: ds) ++ '.' :: ext).length
          - extLenRev (((b ++ '.' :: ds) ++ '.' :: ext).reverse) 0))) = _
  rw [hn]
  have hlen : ((b ++ '.' :: ds) ++ '.' :: ext).length - (ext.length + 1)
      = (b ++ '.' :: ds).length := by
    simp [List.length_append]
    omega
  rw [hlen, List.take_left, List.drop_left]

theorem mcNameLoop_sound (isf : String → Bool) (base container : String) :
    ∀ (fuel k : Nat) (out : String) (c : Nat),
      mcNameLoop isf base container fuel (mcCandidate base container k) (k + 1) = some (out, c) →
      isf out = false ∧ k + 1 ≤ c ∧ out = mcCandidate base container (c - 1) ∧
        ∀ j, k ≤ j → j < c - 1 → isf (mcCandidate base container j) = true := by
  intro fuel
  induction fuel with
  | zero =>
    intro k out c h
    exact absurd h (by simp [mcNameLoop])
  | succ f ih =>
    intro k out c h
    unfold mcNameLoop at h
    cases hk : isf (mcCandidate base container k) with
    | true =>
      rw [hk] at h
      simp only [if_true] at h
      obtain ⟨h1, h2, h3, h4⟩ := ih (k + 1) out c h
      refine ⟨h1, by omega, h3, ?_⟩
      intro j hj1 hj2
      rcases Nat.eq_or_lt_of_le hj1 with heq | hlt
      · rw [← heq]; exact hk
      · exact h4 j (by omega) hj2
    | false =>
      rw [hk] at h
      simp only [Bool.false_eq_true, if_false, Option.some.injEq, Prod.mk.injEq] at h
      obtain ⟨h1, h2⟩ := h
      subst h1
      subst h2
      refine ⟨hk, by omega, by simp, ?_⟩
      intro j hj1 hj2
      omega

theorem mcNameLoop_progress (isf : String → Bool) (base container : String) :
    ∀ (fuel k : Nat),
      (∃ j, k ≤ j ∧ j < k + fuel ∧ isf (mcCandidate base container j) = false) →
      (mcNameLoop isf base container fuel (mcCandidate base container k) (k + 1)).isSome = true := by
  intro fuel
  induction fuel with
  | zero =>
    intro k ⟨j, hj1, hj2, _⟩
    omega
  | succ f ih =>
    intro k ⟨j, hj1, hj2, hj3⟩
    unfold mcNameLoop
    cases hk : isf (mcCandidate base container k) with
    | false => simp
    | true =>
      simp only [if_true]
      have hne : j ≠ k := by
        intro he
        rw [he] at hj3
        rw [hj3] at hk
        exact absurd hk (by decide)
      exact ih (k + 1) ⟨j, by omega, by omega, hj3⟩

/-! ## Shared example data for concrete instantiations -/

/-- A typical probe video stream. -/
def egVideo : RawStream :=
  ⟨some 0, some "video", some "h264", some 1920, some 1080, none, none, none, none,
    some (.int 1), some (.int 0), some (.int 0)⟩

/-- A typical probe audio stream (English, 6 channels). -/
def egAudio : RawStream :=
  ⟨some 1, some "audio", some "aac", none, none, some 6, some "eng", none, none,
    some (.int 1), some (.int 0), some (.int 0)⟩

/-- The default options of the batch tool (`mp4`, `hevc`, CRF already
defaulted to 24, `eac3`, subtitles on), with `-y` set. -/
def egArgs : MCArgs :=
  ⟨"mp4", "hevc", false, some 24, "eac3", false, true, false, true, false⟩

/-! ## Claim theorems -/

/-- C1 counterexample: a supplied CRF of 52 is rejected inside argument
parsing — `crf_range` raises `ArgumentTypeError` and `argparse`
terminates the process with exit status 2, not 1, so the claimed exit
code is wrong (and `main`'s exit-1 range check never sees the value). -/
theorem c1_counterexample :
    parseCrfArg 52 = Except.error 2
    ∧ parseCrfArg 52 ≠ Except.error 1
    ∧ crf_range 52 = Except.error "CRF value must be between 0 and 51, but got 52." := by
  exact ⟨by decide, by decide, by decide⟩

/-- C1 as amended: every supplied CRF value outside [0, 51] is always
rejected — `crf_range` raises and the process exits at argument parsing
with status 2 — and every integer in [0, 51] is accepted unchanged by
the parser and left unchanged by `main`'s subsequent validation. -/
theorem c1_crf_validation_amended (v : Int) :
    ((v < 0 ∨ 51 < v) →
      crf_range v =
        Except.error ("CRF value must be between 0 and 51, but got " ++ toString v ++ ".")
      ∧ parseCrfArg v = Except.error 2)
    ∧ ((0 ≤ v ∧ v ≤ 51) →
      crf_range v = Except.ok v ∧ parseCrfArg v = Except.ok v ∧
        ∀ vc, mcValidateCrf (some v) vc = Except.ok (some v)) := by
  constructor
  · intro h
    have hb : (v < 0 || v > 51) = true := by
      rcases h with h | h <;> simp [h]
    have hcr : crf_range v =
        Except.error ("CRF value must be between 0 and 51, but got " ++ toString v ++ ".") := by
      simp [crf_range, hb]
    exact ⟨hcr, by simp [parseCrfArg, hcr]⟩
  · intro h
    have hb : (v < 0 || v > 51) = false := by
      simp
      omega
    have hcr : crf_range v = Except.ok v := by simp [crf_range, hb]
    exact ⟨hcr, by simp [parseCrfArg, hcr], fun vc => by simp [mcValidateCrf, hb]⟩

/-- C1 witness: 52 is rejected with exit status 2 at parsing, 30 is
accepted unchanged by the parser and by `main`'s validation. -/
theorem c1_crf_validation_amended_witness :
    (crf_range 52 = Except.error "CRF value must be between 0 and 51, but got 52."
      ∧ parseCrfArg 52 = Except.error 2)
    ∧ (crf_range 30 = Except.ok 30 ∧ parseCrfArg 30 = Except.ok 30 ∧
        mcValidateCrf (some 30) "hevc" = Except.ok (some 30)) :=
  ⟨(c1_crf_validation_amended 52).1 (by omega),
   ⟨((c1_crf_validation_amended 30).2 (by omega)).1,
    ((c1_crf_validation_amended 30).2 (by omega)).2.1,
    ((c1_crf_validation_amended 30).2 (by omega)).2.2 "hevc"⟩⟩

/-- C3: the mapping from stream descriptors, directory listing, existing
files and options to the derived output name, selected streams and
encoder argument list is a function — equal inputs give equal plans. -/
theorem c3_plan_deterministic (p q : PlanIn) (h : p = q) : mcPlan p = mcPlan q := by
  rw [h]

/-- C3 witness: two runs of the planner on one concrete input agree, and
the plan on that input is defined. -/
theorem c3_plan_deterministic_witness :
    mcPlan ⟨egArgs, "movie.mkv", ["movie.mkv"], ["movie.mkv", "movie.srt"], [egVideo, egAudio]⟩
      = mcPlan ⟨egArgs, "movie.mkv", ["movie.mkv"], ["movie.mkv", "movie.srt"], [egVideo, egAudio]⟩
    ∧ (mcPlan ⟨egArgs, "movie.mkv", ["movie.mkv"], ["movie.mkv", "movie.srt"],
        [egVideo, egAudio]⟩).isSome = true :=
  ⟨c3_plan_deterministic _ _ rfl, by decide⟩

/-- C4 evidence (the code contradicts the claim): on malformed probe
output the batch tool returns from `main` with the error message as a
discarded return value — exit status 0, no event printed — and the
interactive tool's `get_streams` hands back a 2-tuple whose unpacking
into three variables crashes, so neither tool reports the error text. -/
theorem c4_probe_error_unreported :
    mcRun egArgs "movie.mkv" ["movie.mkv"] [] none "" 0 [] =
      some ⟨0, [], true, 0, some "Error: Could not retrieve stream information.",
        "movie.mp4", 1, [], [], [], none, false⟩
    ∧ fe_get_streams none = .pair [] "Error: Could not retrieve stream information."
    ∧ feMainUnpack (fe_get_streams none) = none := by
  refine ⟨by decide, rfl, rfl⟩

/-- C5: when `-y` is not set and the stripped, lowercased confirmation
line is not `y`, the batch tool prints `Aborted.`, exits with status 0,
never runs the encoder, and deletes or renames nothing. -/
theorem c5_user_abort (a : MCArgs) (input_file output_file base : String) (counter : Nat)
    (subs : List SubFile) (stdin : String) (encExit : Int) (files2 : List String)
    (h1 : a.noPrompt = false) (h2 : pyLower (pyStrip stdin) ≠ "y") :
    mcFinish a input_file output_file base counter subs stdin encExit files2 =
      ⟨0, 0, [MCEvent.promptShown, MCEvent.aborted], [], none⟩ := by
  have hc : (!a.noPrompt && (pyLower (pyStrip stdin) != "y")) = true := by
    rw [h1]
    simp [bne_iff_ne]
    exact h2
  simp [mcFinish, hc]

/-- C5 witness: answering `n` aborts cleanly. -/
theorem c5_user_abort_witness :
    mcFinish { egArgs with noPrompt := false } "movie.mkv" "movie.mp4" "movie" 1 [] " N " 0
        ["movie.mkv"] =
      ⟨0, 0, [MCEvent.promptShown, MCEvent.aborted], [], none⟩ :=
  c5_user_abort { egArgs with noPrompt := false } "movie.mkv" "movie.mp4" "movie" 1 [] " N " 0
    ["movie.mkv"] rfl (by decide)

/-- C6: when the encoder exits non-zero (after the confirmation is
passed or skipped) the batch tool prints the error, exits with status 1,
ran the encoder exactly once, and deletes or renames nothing even with
`-d` set. -/
theorem c6_encoder_failure (a : MCArgs) (input_file output_file base : String) (counter : Nat)
    (subs : List SubFile) (stdin : String) (encExit : Int) (files2 : List String)
    (h1 : a.noPrompt = true ∨ pyLower (pyStrip stdin) = "y") (h2 : encExit ≠ 0) :
    mcFinish a input_file output_file base counter subs stdin encExit files2 =
      ⟨1, 1, (if !a.noPrompt then [MCEvent.promptShown] else []) ++ [MCEvent.encError],
        [], none⟩ := by
  have hc : (!a.noPrompt && (pyLower (pyStrip stdin) != "y")) = false := by
    rcases h1 with h | h
    · rw [h]
      rfl
    · rw [h]
      simp
  have he : (encExit != 0) = true := by
    simp [bne_iff_ne]
    exact h2
  simp [mcFinish, hc, he]

/-- C6 witness: exit status 7 from the encoder, with `-d` set, leaves
everything in place and ends with status 1. -/
theorem c6_encoder_failure_witness :
    mcFinish { egArgs with delete := true } "movie.mkv" "movie.mp4" "movie" 1
        [⟨1, "srt", "eng", 0, 0, 0, "English", "./movie.srt"⟩] "" 7
        ["movie.mkv", "./movie.srt"] =
      ⟨1, 1, [MCEvent.encError], [], none⟩ :=
  c6_encoder_failure { egArgs with delete := true } "movie.mkv" "movie.mp4" "movie" 1
    [⟨1, "srt", "eng", 0, 0, 0, "English", "./movie.srt"⟩] "" 7
    ["movie.mkv", "./movie.srt"] (Or.inl rfl) (by decide)

/-- C7 counterexample: an existing but unreadable file passes the
`os.path.isfile` check (modelled: `video.mkv` is in `files`, and the
probe's output on the unreadable file is unparseable, `probe = none`).
The run then invokes the inspection process and ends with exit status 0
and nothing printed — contradicting the claim's exit-1-before-inspection
for a path that does not name an existing readable file. -/
theorem c7_counterexample :
    (mcRun egArgs "video.mkv" ["video.mkv"] [] none "" 0 []).map
      (fun r => (r.exitCode, r.ranProbe, r.events)) = some (0, true, []) := by
  decide

/-- C7 as amended: when the input path is not an existing file
(`os.path.isfile` false) the batch tool exits with status 1 after
printing an error, without invoking the probe or the encoder (the only
other pre-probe exit is the CRF check, also status 1); but the check is
existence only — for an existing file whose unreadability makes the
probe output unparseable, the inspection process is invoked and the run
ends silently with exit status 0, the error message being a discarded
return value. -/
theorem c7_input_check_amended (a : MCArgs) (input_file : String) (files listing : List String)
    (probe : Option (List RawStream)) (stdin : String) (encExit : Int)
    (files2 : List String) :
    (files.contains input_file = false →
      ∃ r, mcRun a input_file files listing probe stdin encExit files2 = some r ∧
        r.exitCode = 1 ∧ r.ranProbe = false ∧ r.encoderRuns = 0 ∧
        (r.events = [MCEvent.crfError] ∨ r.events = [MCEvent.inputError]))
    ∧ (∀ c2 out cnt, mcValidateCrf a.crfValue a.videoCodec = Except.ok c2 →
        files.contains input_file = true →
        mcOutputName (files.contains ·) (pySplitExt input_file).1 a.container
          (files.length + 1) = some (out, cnt) →
        mcRun a input_file files listing none stdin encExit files2 =
          some ⟨0, [], true, 0, some "Error: Could not retrieve stream information.",
            out, cnt,
            scanSubfiles (if pyDirname input_file == "" then "." else pyDirname input_file)
              (pySplitExt (pyBasename input_file)).1 listing, [], [], none, false⟩) := by
  constructor
  · intro h
    unfold mcRun
    cases hval : mcValidateCrf a.crfValue a.videoCodec with
    | error e => exact ⟨_, rfl, rfl, rfl, rfl, Or.inl rfl⟩
    | ok c2 =>
      simp only [h, Bool.not_false, if_true]
      exact ⟨_, rfl, rfl, rfl, rfl, Or.inr rfl⟩
  · intro c2 out cnt hval hfile hname
    unfold mcRun
    rw [hval]
    simp only [hfile, Bool.not_true, Bool.false_eq_true, if_false]
    rw [hname]

/-- C7 witness: a missing `movie.mkv` stops the run before the probe
with status 1, while an existing `video.mkv` with unreadable probe
output reaches the probe and exits 0. -/
theorem c7_input_check_amended_witness :
    (∃ r, mcRun egArgs "movie.mkv" ["other.mkv"] [] none "" 0 [] = some r ∧
      r.exitCode = 1 ∧ r.ranProbe = false ∧ r.encoderRuns = 0 ∧
      (r.events = [MCEvent.crfError] ∨ r.events = [MCEvent.inputError]))
    ∧ mcRun egArgs "video.mkv" ["video.mkv"] [] none "" 0 [] =
        some ⟨0, [], true, 0, some "Error: Could not retrieve stream information.",
          "video.mp4", 1, [], [], [], none, false⟩ :=
  ⟨(c7_input_check_amended egArgs "movie.mkv" ["other.mkv"] [] none "" 0 []).1 (by decide),
   (c7_input_check_amended egArgs "video.mkv" ["video.mkv"] [] none "" 0 []).2
     (some 24) "video.mp4" 1 (by decide) (by decide) (by decide)⟩

/-- C9: any name the output-name loop returns is the first candidate in
the sequence `base.container`, `base.1.container`, `base.2.container`,
... that is not an existing file; and the loop does return whenever some
candidate within the fuel bound is free. -/
theorem c9_first_free_name (files : List String) (base container : String) (fuel : Nat) :
    (∀ out c, mcOutputName (files.contains ·) base container fuel = some (out, c) →
      files.contains out = false ∧ out = mcCandidate base container (c - 1) ∧
        ∀ j, j < c - 1 → files.contains (mcCandidate base container j) = true)
    ∧ (∀ j, j < fuel → files.contains (mcCandidate base container j) = false →
        (mcOutputName (files.contains ·) base container fuel).isSome = true) := by
  constructor
  · intro out c h
    have h0 : mcNameLoop (files.contains ·) base container fuel
        (mcCandidate base container 0) (0 + 1) = some (out, c) := h
    obtain ⟨h1, _, h3, h4⟩ := mcNameLoop_sound (files.contains ·) base container fuel 0 out c h0
    exact ⟨h1, h3, fun j hj => h4 j (Nat.zero_le j) hj⟩
  · intro j hj hfree
    exact mcNameLoop_progress (files.contains ·) base container fuel 0
      ⟨j, Nat.zero_le j, by omega, hfree⟩

/-- C9 witness: with `m.mp4` on disk the loop picks `m.1.mp4`, which
does not exist, after the occupied candidate `m.mp4`. -/
theorem c9_first_free_name_witness :
    (["m.mp4"].contains "m.1.mp4" = false ∧
      "m.1.mp4" = mcCandidate "m" "mp4" (2 - 1) ∧
      ∀ j, j < 2 - 1 → ["m.mp4"].contains (mcCandidate "m" "mp4" j) = true)
    ∧ (mcOutputName (["m.mp4"].contains ·) "m" "mp4" 2).isSome = true :=
  ⟨(c9_first_free_name ["m.mp4"] "m" "mp4" 2).1 "m.1.mp4" 2 (by decide),
   (c9_first_free_name ["m.mp4"] "m" "mp4" 2).2 1 (by decide) (by decide)⟩

/-- C10 counterexample: for the bare input path `movie.mkv` — the
ordinary invocation — `os.path.dirname` is the empty string, and
`get_srt_filenames` calls `os.listdir("")`, which raises
`FileNotFoundError`: the function errors instead of returning the
placeholder, so it does not return a non-empty list for every input
path. -/
theorem c10_counterexample :
    fe_get_srt_filenames "movie.mkv" ["movie.srt"] =
      Except.error "FileNotFoundError: [Errno 2] No such file or directory:"
    ∧ ∀ l, fe_get_srt_filenames "movie.mkv" ["movie.srt"] ≠ Except.ok l := by
  refine ⟨by decide, ?_⟩
  intro l h
  rw [show fe_get_srt_filenames "movie.mkv" ["movie.srt"] =
    Except.error "FileNotFoundError: [Errno 2] No such file or directory:" from by decide] at h
  exact absurd h (by simp)

/-- C10 as amended: for every input path with a directory component,
`get_srt_filenames` returns a non-empty list — the single placeholder
`("No srt files present", "en", 0, 0)` when no `.srt` entry of the
directory listing contains the base name; for a bare filename the
directory is the empty string and `os.listdir("")` raises
`FileNotFoundError`, so the function errors instead. -/
theorem c10_placeholder_amended (file_path : String) (listing : List String) :
    (pyDirname file_path ≠ "" →
      (∃ l, fe_get_srt_filenames file_path listing = Except.ok l ∧ l ≠ [])
      ∧ ((∀ f ∈ listing, pyEndsWith (pyLower f) ".srt" = true →
            strContains (pySplitExt (pyBasename file_path)).1 f = false) →
          fe_get_srt_filenames file_path listing =
            Except.ok [("No srt files present", "en", 0, 0)]))
    ∧ (pyDirname file_path = "" →
        fe_get_srt_filenames file_path listing =
          Except.error "FileNotFoundError: [Errno 2] No such file or directory:") := by
  constructor
  · intro hdir
    have hdirb : (pyDirname file_path == "") = false := beq_eq_false_iff_ne.mpr hdir
    constructor
    · show ∃ l, (if pyDirname file_path == "" then
          Except.error "FileNotFoundError: [Errno 2] No such file or directory:"
        else Except.ok (if (listing.filterMap (feEntry (pyDirname file_path)
            (pySplitExt (pyBasename file_path)).1)).isEmpty = true
          then [("No srt files present", "en", 0, 0)]
          else listing.filterMap (feEntry (pyDirname file_path)
            (pySplitExt (pyBasename file_path)).1))) = Except.ok l ∧ l ≠ []
      rw [hdirb]
      simp only [Bool.false_eq_true, if_false]
      refine ⟨_, rfl, ?_⟩
      cases hne : (listing.filterMap (feEntry (pyDirname file_path)
          (pySplitExt (pyBasename file_path)).1)).isEmpty with
      | true => simp
      | false =>
        simp only [Bool.false_eq_true, if_false]
        intro he
        rw [he] at hne
        exact absurd hne (by decide)
    · intro hall
      have hnil : listing.filterMap (feEntry (pyDirname file_path)
          (pySplitExt (pyBasename file_path)).1) = [] := by
        rw [List.filterMap_eq_nil_iff]
        intro f hf
        unfold feEntry
        cases hend : pyEndsWith (pyLower f) ".srt" with
        | false => simp [hend]
        | true => simp [hend, hall f hf hend]
      simp only [fe_get_srt_filenames]
      rw [hdirb, hnil]
      rfl
  · intro hdir
    have hdirb : (pyDirname file_path == "") = true := by
      rw [hdir]
      rfl
    simp only [fe_get_srt_filenames]
    rw [hdirb]
    rfl

/-- C10 witness: `a/movie.mkv` has directory `a`, the listing holds no
matching subtitle, and the placeholder comes back; the bare `movie.mkv`
errors. -/
theorem c10_placeholder_amended_witness :
    ((∃ l, fe_get_srt_filenames "a/movie.mkv" ["movie.mkv", "other.srt"] = Except.ok l ∧
        l ≠ [])
      ∧ fe_get_srt_filenames "a/movie.mkv" ["movie.mkv", "other.srt"] =
          Except.ok [("No srt files present", "en", 0, 0)])
    ∧ fe_get_srt_filenames "movie.mkv" ["movie.srt"] =
        Except.error "FileNotFoundError: [Errno 2] No such file or directory:" :=
  ⟨⟨((c10_placeholder_amended "a/movie.mkv" ["movie.mkv", "other.srt"]).1 (by decide)).1,
    ((c10_placeholder_amended "a/movie.mkv" ["movie.mkv", "other.srt"]).1 (by decide)).2
      (by decide)⟩,
   (c10_placeholder_amended "movie.mkv" ["movie.srt"]).2 (by decide)⟩

/-- C8 counterexample: with `-s -d` (subtitles excluded, delete set) and
a successful conversion, the scanned subtitle file `./movie.srt` is
deleted although the assembled command never consumed it as an encoder
input — so the tool does not delete precisely the consumed subtitle
files. -/
theorem c8_counterexample :
    (mcFinish { egArgs with subtitle := false, delete := true } "movie.mkv" "movie.mp4"
        "movie" 1 (scanSubfiles "." "movie" ["movie.mkv", "movie.srt"]) "" 0
        ["movie.mkv", "./movie.srt"]).deleted = ["movie.mkv", "./movie.srt"]
    ∧ (buildCmd { egArgs with subtitle := false, delete := true } "movie.mkv" "movie.mp4"
        (scanSubfiles "." "movie" ["movie.mkv", "movie.srt"])
        (parseStreams { egArgs with subtitle := false, delete := true } [egVideo, egAudio]).vout
        (parseStreams { egArgs with subtitle := false, delete := true } [egVideo, egAudio]).aout
        (parseStreams { egArgs with subtitle := false, delete := true }
          [egVideo, egAudio]).sout).map
        (fun l => l.contains "./movie.srt") = some false := by
  exact ⟨by decide, by decide⟩

/-- C8 as amended: on a confirmed successful run with `-d`, the batch
tool deletes the source file when it still exists, deletes every
subtitle file found by the directory scan that still exists — whether or
not the subtitle option made them encoder inputs — and renames the
output to `base.container` exactly when the output's stem ends in a dot
followed by `counter - 1` and its extension is the container; in
particular the rename always fires when a numbered suffix was appended. -/
theorem c8_delete_rename (a : MCArgs) (input_file output_file base : String) (counter : Nat)
    (subs : List SubFile) (stdin : String) (files2 : List String)
    (h1 : a.noPrompt = true ∨ pyLower (pyStrip stdin) = "y") (h2 : a.delete = true) :
    (mcFinish a input_file output_file base counter subs stdin 0 files2).exitCode = 0
    ∧ (mcFinish a input_file output_file base counter subs stdin 0 files2).encoderRuns = 1
    ∧ (mcFinish a input_file output_file base counter subs stdin 0 files2).deleted =
        (if input_file != "" && files2.contains input_file then [input_file] else [])
        ++ (subs.filter (fun f => f.filename != "" && files2.contains f.filename)).map
            (fun f => f.filename)
    ∧ (mcFinish a input_file output_file base counter subs stdin 0 files2).renamed =
        (if pyEndsWith (pySplitExt output_file).1 ("." ++ toString (counter - 1))
            && ((pySplitExt output_file).2 == "." ++ a.container)
         then some (output_file, base ++ "." ++ a.container) else none)
    ∧ (∀ ds : List Char, (∀ c ∈ ds, c ≠ '.' ∧ c ≠ '/') → ds ≠ [] →
        (a.container = "mp4" ∨ a.container = "mkv") →
        String.mk ds = toString (counter - 1) →
        output_file = String.mk ((base.data ++ '.' :: ds) ++ '.' :: a.container.data) →
        (mcFinish a input_file output_file base counter subs stdin 0 files2).renamed =
          some (output_file, base ++ "." ++ a.container)) := by
  have hc : (!a.noPrompt && (pyLower (pyStrip stdin) != "y")) = false := by
    rcases h1 with h | h
    · rw [h]
      rfl
    · rw [h]
      simp
  have hfin : mcFinish a input_file output_file base counter subs stdin 0 files2 =
      ⟨0, 1,
        (if !a.noPrompt then [MCEvent.promptShown] else [])
          ++ (if input_file != "" && files2.contains input_file then [input_file] else []).map
              MCEvent.deleting
          ++ (match (if pyEndsWith (pySplitExt output_file).1 ("." ++ toString (counter - 1))
                && ((pySplitExt output_file).2 == "." ++ a.container)
              then some (output_file, base ++ "." ++ a.container) else none) with
              | some p => [MCEvent.renaming p.1 p.2]
              | none => [])
          ++ ((subs.filter (fun f => f.filename != "" && files2.contains f.filename)).map
              (fun f => f.filename)).map MCEvent.deleting,
        (if input_file != "" && files2.contains input_file then [input_file] else [])
          ++ (subs.filter (fun f => f.filename != "" && files2.contains f.filename)).map
              (fun f => f.filename),
        (if pyEndsWith (pySplitExt output_file).1 ("." ++ toString (counter - 1))
            && ((pySplitExt output_file).2 == "." ++ a.container)
         then some (output_file, base ++ "." ++ a.container) else none)⟩ := by
    simp [mcFinish, hc, h2]
  refine ⟨by rw [hfin], by rw [hfin], by rw [hfin], by rw [hfin], ?_⟩
  intro ds hdsc hne hcont hds hout
  rw [hfin]
  show (if pyEndsWith (pySplitExt output_file).1 ("." ++ toString (counter - 1))
      && ((pySplitExt output_file).2 == "." ++ a.container)
    then some (output_file, base ++ "." ++ a.container) else none) =
    some (output_file, base ++ "." ++ a.container)
  have hext : ∀ c ∈ a.container.data, c ≠ '.' ∧ c ≠ '/' := by
    rcases hcont with h | h <;> rw [h] <;> decide
  have hsplit := pySplitExt_concat base.data ds a.container.data hne hdsc hext
  rw [hout, hsplit]
  have hdot : ("." ++ String.mk ds).data = '.' :: ds := by
    simp [String.data_append]
  have hEnds : pyEndsWith (String.mk (base.data ++ '.' :: ds)) ("." ++ toString (counter - 1))
      = true := by
    rw [← hds]
    unfold pyEndsWith
    rw [hdot]
    exact listEndsWith_append base.data ('.' :: ds)
  have hExtEq : String.mk ('.' :: a.container.data) = "." ++ a.container := by
    apply String.ext
    simp [String.data_append]
  rw [hEnds, hExtEq]
  simp

/-- C8 witness: input `movie.mkv` with `movie.mp4` already on disk, so
the output got the numbered name `movie.1.mp4` and `counter = 2`; the
cleanup deletes the source and the scanned subtitle file and renames
`movie.1.mp4` back to `movie.mp4`. -/
theorem c8_delete_rename_witness :
    (mcFinish { egArgs with delete := true } "movie.mkv" "movie.1.mp4" "movie" 2
        [⟨1, "srt", "eng", 0, 0, 0, "English", "./movie.srt"⟩] "" 0
        ["movie.mkv", "./movie.srt"]).renamed = some ("movie.1.mp4", "movie" ++ "." ++ "mp4")
    ∧ (mcFinish { egArgs with delete := true } "movie.mkv" "movie.1.mp4" "movie" 2
        [⟨1, "srt", "eng", 0, 0, 0, "English", "./movie.srt"⟩] "" 0
        ["movie.mkv", "./movie.srt"]).deleted = ["movie.mkv", "./movie.srt"] := by
  have h := c8_delete_rename { egArgs with delete := true } "movie.mkv" "movie.1.mp4" "movie" 2
    [⟨1, "srt", "eng", 0, 0, 0, "English", "./movie.srt"⟩] "" ["movie.mkv", "./movie.srt"]
    (Or.inl rfl) rfl
  refine ⟨?_, ?_⟩
  · exact h.2.2.2.2 ['1'] (by decide) (by decide) (Or.inl rfl) (by decide) (by decide)
  · rw [h.2.2.1]
    decide

/-- A subtitle filename following the documented naming convention,
relative to a base name: optional two-letter language code, optional
`forced` tag, optional `sdh` tag, extension `.srt` (this is the claim's
input domain, not program code). -/
def convTail (code : Option (Char × Char)) (fb sb : Bool) : List Char :=
  (match code with | some p => ['.', p.1, p.2] | none => [])
    ++ (if fb then ['.', 'f', 'o', 'r', 'c', 'e', 'd'] else [])
    ++ (if sb then ['.', 's', 'd', 'h'] else [])
    ++ ['.', 's', 'r', 't']

/-- C2 counterexample: for `movie.fr.srt` — a convention-matching name
with language code `fr` — the interactive tool reports the stated
language `fr`, but the batch tool classifies the file as `eng`, so the
two tools do not both attach the stated language. -/
theorem c2_counterexample :
    (mcClassifyOne "." "movie" 1 "movie.fr.srt").map (fun f => f.language) = some "eng"
    ∧ feMatchSrt (pyLower "movie.fr.srt") = some ⟨some ['f', 'r'], false, false⟩
    ∧ (mcClassifyOne "." "movie" 1 "movie.fr.srt").map (fun f => f.language) ≠ some "fr" := by
  exact ⟨by decide, by decide, by decide⟩


/-- C2 as amended: for every convention-matching lowercase subtitle
filename built from a dot-free base name, both tools set `forced = 1`
exactly when the `forced` tag is present and `sdh = 1` exactly when the
`sdh` tag is present; the interactive tool reports the stated two-letter
language code (defaulting to `en` when none is present), while the batch
tool reports the language as `eng` for every such file, whatever the
code says. -/
theorem c2_classification_amended (d base : String) (i : Nat)
    (code : Option (Char × Char)) (fb sb : Bool)
    (hb : base ≠ "") (hbd : ∀ c ∈ base.data, c ≠ '.')
    (hbl : base.data.map lowCh = base.data)
    (hcode : ∀ p, code = some p → isLowerAZ p.1 = true ∧ isLowerAZ p.2 = true ∧
      lowCh p.1 = p.1 ∧ lowCh p.2 = p.2) :
    (mcClassifyOne d base i (String.mk (base.data ++ convTail code fb sb))).map
        (fun f => f.language) = some "eng"
    ∧ (mcClassifyOne d base i (String.mk (base.data ++ convTail code fb sb))).map
        (fun f => f.forced) = some (if fb then 1 else 0)
    ∧ (mcClassifyOne d base i (String.mk (base.data ++ convTail code fb sb))).map
        (fun f => f.sdh) = some (if sb then 1 else 0)
    ∧ feMatchSrt (pyLower (String.mk (base.data ++ convTail code fb sb)))
        = some ⟨code.map (fun p => [p.1, p.2]), fb, sb⟩ := by
  have hbne : base.data ≠ [] := by
    intro h0
    apply hb
    have h1 : base = String.mk base.data := rfl
    rw [h1, h0]
  have htl : (convTail code fb sb).map lowCh = convTail code fb sb := by
    rcases code with _ | ⟨x, y⟩
    · cases fb <;> cases sb <;> decide
    · obtain ⟨_, _, h3, h4⟩ := hcode (x, y) rfl
      have l1 : lowCh '.' = '.' := by decide
      have l2 : lowCh 'f' = 'f' := by decide
      have l3 : lowCh 'o' = 'o' := by decide
      have l4 : lowCh 'r' = 'r' := by decide
      have l5 : lowCh 'c' = 'c' := by decide
      have l6 : lowCh 'e' = 'e' := by decide
      have l7 : lowCh 'd' = 'd' := by decide
      have l8 : lowCh 's' = 's' := by decide
      have l9 : lowCh 'h' = 'h' := by decide
      have l10 : lowCh 't' = 't' := by decide
      cases fb <;> cases sb <;>
        simp [convTail, h3, h4, l1, l2, l3, l4, l5, l6, l7, l8, l9, l10]
  have hlow : pyLower (String.mk (base.data ++ convTail code fb sb))
      = String.mk (base.data ++ convTail code fb sb) := by
    show String.mk ((base.data ++ convTail code fb sb).map lowCh) = _
    rw [List.map_append, hbl, htl]
  have hEnds : pyEndsWith (pyLower (String.mk (base.data ++ convTail code fb sb))) ".srt"
      = true := by
    rw [hlow]
    show listEndsWith (base.data ++ convTail code fb sb) (".srt".data) = true
    have hshape : base.data ++ convTail code fb sb
        = (base.data ++ ((match code with | some p => ['.', p.1, p.2] | none => [])
            ++ (if fb then ['.', 'f', 'o', 'r', 'c', 'e', 'd'] else [])
            ++ (if sb then ['.', 's', 'd', 'h'] else []))) ++ ['.', 's', 'r', 't'] := by
      rcases code with _ | p <;> cases fb <;> cases sb <;> simp [convTail]
    rw [hshape, show ".srt".data = ['.', 's', 'r', 't'] from rfl]
    exact listEndsWith_append _ _
  have hCont : strContains base (String.mk (base.data ++ convTail code fb sb)) = true := by
    show listHasSub base.data (base.data ++ convTail code fb sb) = true
    exact listHasSub_self_append _ _
  have hdropLow : pyLower (strDrop (String.mk (base.data ++ convTail code fb sb)) base.length)
      = String.mk (convTail code fb sb) := by
    show pyLower (String.mk ((base.data ++ convTail code fb sb).drop base.data.length)) = _
    rw [List.drop_left]
    show String.mk ((convTail code fb sb).map lowCh) = _
    rw [htl]
  have hen : "en".data = ['e', 'n'] := rfl
  have heng : "eng".data = ['e', 'n', 'g'] := rfl
  have hfo : "forced".data = ['f', 'o', 'r', 'c', 'e', 'd'] := rfl
  have hsd : "sdh".data = ['s', 'd', 'h'] := rfl
  rcases code with _ | ⟨x, y⟩
  · refine ⟨?_, ?_, ?_, ?_⟩
    · unfold mcClassifyOne
      rw [hEnds, hCont, hdropLow]
      simp only [Bool.and_self]
      rw [if_pos trivial]
      cases fb <;> cases sb <;> rfl
    · unfold mcClassifyOne
      rw [hEnds, hCont, hdropLow]
      simp only [Bool.and_self]
      rw [if_pos trivial]
      cases fb <;> cases sb <;> rfl
    · unfold mcClassifyOne
      rw [hEnds, hCont, hdropLow]
      simp only [Bool.and_self]
      rw [if_pos trivial]
      cases fb <;> cases sb <;> rfl
    · rw [hlow]
      show feScan (base.data ++ convTail none fb sb) = _
      rw [feScan_through base.data (convTail none fb sb) hbne hbd
        (by cases fb <;> cases sb <;> decide)]
      cases fb <;> cases sb <;> decide
  · obtain ⟨hlx, hly, _, _⟩ := hcode (x, y) rfl
    have hx' : x ≠ '.' := isLowerAZ_ne_dot x hlx
    have hy' : y ≠ '.' := isLowerAZ_ne_dot y hly
    have hfe : feLang (convTail (some (x, y)) fb sb) = some ⟨some [x, y], fb, sb⟩ := by
      cases fb <;> cases sb <;>
        simp [convTail, feLang, feForced, feSdh, feEnd, hlx, hly]
    refine ⟨?_, ?_, ?_, ?_⟩
    · unfold mcClassifyOne
      rw [hEnds, hCont, hdropLow]
      simp only [Bool.and_self]
      rw [if_pos trivial]
      cases fb <;> cases sb <;>
        (by_cases hxy : ([x, y] : List Char) = ['e', 'n'] <;>
          simp [convTail, splitCh, hx', hy', hen, heng, hfo, hsd, hxy, List.foldl])
    · unfold mcClassifyOne
      rw [hEnds, hCont, hdropLow]
      simp only [Bool.and_self]
      rw [if_pos trivial]
      cases fb <;> cases sb <;>
        (by_cases hxy : ([x, y] : List Char) = ['e', 'n'] <;>
          simp [convTail, splitCh, hx', hy', hen, heng, hfo, hsd, hxy, List.foldl])
    · unfold mcClassifyOne
      rw [hEnds, hCont, hdropLow]
      simp only [Bool.and_self]
      rw [if_pos trivial]
      cases fb <;> cases sb <;>
        (by_cases hxy : ([x, y] : List Char) = ['e', 'n'] <;>
          simp [convTail, splitCh, hx', hy', hen, heng, hfo, hsd, hxy, List.foldl])
    · rw [hlow]
      show feScan (base.data ++ convTail (some (x, y)) fb sb) = _
      rw [feScan_through base.data (convTail (some (x, y)) fb sb) hbne hbd
        (by rw [hfe]; rfl)]
      rw [hfe]
      rfl

/-- C2 witness: for `movie.fr.srt` the amended statement holds — the
batch tool says `eng`, the interactive tool says `fr`, neither flags
forced or SDH; the `forced` flag case is exercised by the theorem's
`fb` argument set to `true`. -/
theorem c2_classification_amended_witness :
    (mcClassifyOne "." "movie" 1
        (String.mk ("movie".data ++ convTail (some ('f', 'r')) true false))).map
        (fun f => f.language) = some "eng"
    ∧ (mcClassifyOne "." "movie" 1
        (String.mk ("movie".data ++ convTail (some ('f', 'r')) true false))).map
        (fun f => f.forced) = some (if true then 1 else 0)
    ∧ (mcClassifyOne "." "movie" 1
        (String.mk ("movie".data ++ convTail (some ('f', 'r')) true false))).map
        (fun f => f.sdh) = some (if false then 1 else 0)
    ∧ feMatchSrt (pyLower (String.mk ("movie".data ++ convTail (some ('f', 'r')) true false)))
        = some ⟨(some ('f', 'r')).map (fun p => [p.1, p.2]), true, false⟩ :=
  c2_classification_amended "." "movie" 1 (some ('f', 'r')) true false
    (by decide) (by decide) (by decide)
    (fun p hp => by
      injection hp with h
      subst h
      exact ⟨by decide, by decide, by decide, by decide⟩)
